import Mathlib

/-
Shallow embedding of the data-analysis repository (time-series analyser and
stock observer) and proofs checking the specification's claims against it.

Conventions of the embedding:
- pandas/numpy value arrays become `List ℚ`; timestamps and timedeltas become `ℚ`
  (only their ordered additive structure is used by the code);
- Python exceptions become an error type `PyErr` returned through `Except`
  (`ValueError` is the spec's InvalidArgument, `KeyError` its NotFound);
- IEEE float special values produced by division are made explicit in `PyFloat`
  (numpy emits `nan`/`inf` on zero division instead of raising);
- a `for i in range(a, b)` loop filling an array becomes a `List.map` over
  `List.range`/`List.range'`.
-/

namespace StockRepo

/-- Python exception kinds raised by the analysed code. `valueError` is what the
specification's taxonomy calls InvalidArgument, `keyError` is its NotFound,
`indexError` is the untyped out-of-bounds fault of `data.index[1]` on a short index. -/
inductive PyErr
  | valueError
  | keyError
  | indexError
deriving DecidableEq

/-- Result of a float division in numpy: a number, or one of the non-raising
special values produced when the denominator is zero. -/
inductive PyFloat
  | nan
  | inf
  | neginf
  | val (x : ℝ)

/-- Division as numpy scalars perform it: denominator zero yields `nan` when the
numerator is zero too and a signed infinity otherwise; no exception is raised. -/
noncomputable def pydiv (a b : ℝ) : PyFloat :=
  if b = 0 then
    if a = 0 then PyFloat.nan else if 0 < a then PyFloat.inf else PyFloat.neginf
  else PyFloat.val (a / b)

/-- Embedding of `np.average(xs)`: sum divided by length. -/
def npAverage (xs : List ℚ) : ℚ := xs.sum / xs.length

/-- Embedding of `np.std(xs) ** 2`: the mean of squared deviations from the mean. -/
def npVariance (xs : List ℚ) : ℚ :=
  npAverage (xs.map (fun x => (x - npAverage xs) ^ 2))

/-- Embedding of `np.std(xs)`: the square root of the mean squared deviation. -/
noncomputable def npStd (xs : List ℚ) : ℝ := Real.sqrt (npVariance xs : ℝ)

/-- One single-column pandas DataFrame as the analysed code uses it: a timestamp
index and one named numeric column. -/
structure PyDataFrame where
  index : List ℚ
  colName : String
  values : List ℚ

/-- Embedding of `TimeSeriesAnalyser.get_array` (analysis.py lines 39-54):
looking up an absent column raises `KeyError`. -/
def get_array (df : PyDataFrame) (col : String) : Except PyErr (List ℚ) :=
  if col = df.colName then Except.ok df.values else Except.error PyErr.keyError

/-- Embedding of the interval computation in `TimeSeriesAnalyser.__init__`
(analysis.py lines 30-35) for the `interval is None` case with at least two rows:
the minimum gap between consecutive timestamps. -/
def minGap (index : List ℚ) : ℚ :=
  ((List.range (index.length - 2)).map
      (fun i => index.getD (i + 2) 0 - index.getD (i + 1) 0)).foldl
    min (index.getD 1 0 - index.getD 0 0)

/-- Embedding of `TimeSeriesAnalyser.__init__` (analysis.py lines 16-37), reduced
to the interval it stores: with an explicit interval it is stored as given; with
`interval=None` the code evaluates `data.index[1] - data.index[0]`, which on fewer
than two rows raises an (untyped) `IndexError`, and otherwise takes the minimum
consecutive gap. -/
def analyser_init (index : List ℚ) (interval : Option ℚ) : Except PyErr ℚ :=
  match interval with
  | some iv => Except.ok iv
  | none =>
      if index.length < 2 then Except.error PyErr.indexError
      else Except.ok (minGap index)

/-- Embedding of `TimeSeriesAnalyser._calc_movarg_int` (analysis.py lines 234-266):
a window smaller than 1 raises `ValueError`; otherwise entry `i` is the numpy
average of the slice `values[start_pos : i + 1]` with `start_pos = max(0, i - window + 1)`
(natural subtraction performs the clamping). -/
def calc_movarg_int (values : List ℚ) (window : ℤ) : Except PyErr (List ℚ) :=
  if window < 1 then Except.error PyErr.valueError
  else Except.ok ((List.range values.length).map (fun i =>
    npAverage ((values.take (i + 1)).drop (i + 1 - window.toNat))))

/-- Embedding of the backward scan inside `TimeSeriesAnalyser._calc_movarg_timedelta`
(analysis.py lines 285-294): starting at position `j` and walking down to 0,
accumulate `(sum_prices, n)` over values whose timestamp is within `window` of `ti`,
stopping at the first position where the bound is exceeded (the loop's `break`). -/
def sum_back (ts vs : List ℚ) (ti window : ℚ) : ℕ → ℚ × ℕ
  | 0 => if ti - ts.getD 0 0 ≤ window then (vs.getD 0 0, 1) else (0, 0)
  | j + 1 =>
      if ti - ts.getD (j + 1) 0 ≤ window then
        let p := sum_back ts vs ti window j
        (vs.getD (j + 1) 0 + p.1, p.2 + 1)
      else (0, 0)

/-- Embedding of `TimeSeriesAnalyser._calc_movarg_timedelta` (analysis.py lines
268-302): entry `i` is `sum_prices / n` for the backward scan started at `i`. -/
def calc_movarg_timedelta (ts vs : List ℚ) (window : ℚ) : List ℚ :=
  (List.range vs.length).map (fun i =>
    let p := sum_back ts vs (ts.getD i 0) window i
    p.1 / p.2)

/-- Embedding of one entry of `TimeSeriesAnalyser.calc_autocor` (analysis.py lines
318-326): for sub-series `x` and `y`, the value `(avg(x*y) - avg(x)*avg(y)) / (std(x)*std(y))`
as a numpy float division (zero denominator gives `nan`/`inf`, not an exception). -/
noncomputable def autocorEntry (x y : List ℚ) : PyFloat :=
  pydiv ((npAverage (List.zipWith (fun a b => a * b) x y) : ℝ) -
          (npAverage x : ℝ) * (npAverage y : ℝ))
        (npStd x * npStd y)

/-- Embedding of the loop of `TimeSeriesAnalyser.calc_autocor` (analysis.py lines
317-326): for each lag `i` in `range(0, n - 1)`, the entry over `x = values[i:n]`
and `y = values[0:n-i]`. -/
noncomputable def autocorList (values : List ℚ) : List PyFloat :=
  (List.range (values.length - 1)).map (fun i =>
    autocorEntry (values.drop i) (values.take (values.length - i)))

/-- Embedding of `TimeSeriesAnalyser.calc_autocor` (analysis.py lines 304-335)
including the column lookup and the allocation `np.empty([n - 1])`, which on an
empty series evaluates `np.empty([-1])` and raises an untyped `ValueError`
(negative dimensions); no length check exists for `n = 1`. -/
noncomputable def calc_autocor (df : PyDataFrame) (col : String) :
    Except PyErr (List PyFloat) := do
  let values ← get_array df col
  if values.length = 0 then Except.error PyErr.valueError
  else Except.ok (autocorList values)

/-- Embedding of `TimeSeriesAnalyser.differentiate` (analysis.py lines 187-210):
entry `i` of the result is `(values[i+1] - values[i]) / ((index[i+1] - index[i]) / interval)`;
the result has `n - 1` entries and no length check exists for short series. -/
def differentiate (df : PyDataFrame) (interval : ℚ) (col : String) :
    Except PyErr (List ℚ) := do
  let values ← get_array df col
  Except.ok ((List.range (values.length - 1)).map (fun i =>
    (values.getD (i + 1) 0 - values.getD i 0) /
      ((df.index.getD (i + 1) 0 - df.index.getD i 0) / interval)))

/-- Values carried by a successful `Except`, with `[]` for the error case; used to
state properties of the list a succeeding operation returns. -/
def okValues {α : Type} (e : Except PyErr (List α)) : List α := e.toOption.getD []

/-- Extremum tag used by `_find_loc_extremes`. -/
inductive ExtremeKind
  | isMin
  | isMax
deriving DecidableEq

/-- Embedding of the body of the scan loop of `TimeSeriesAnalyser._find_loc_extremes`
(analysis.py lines 170-176): the Min test runs first, the Max test only in its
`elif`, and an interior point failing both is skipped. -/
def locExtremeAt (values : List ℚ) (i : ℕ) : Option ExtremeKind :=
  if values.getD i 0 ≤ values.getD (i - 1) 0 ∧ values.getD i 0 ≤ values.getD (i + 1) 0 then
    some ExtremeKind.isMin
  else if values.getD (i - 1) 0 ≤ values.getD i 0 ∧ values.getD (i + 1) 0 ≤ values.getD i 0 then
    some ExtremeKind.isMax
  else none

/-- Embedding of `TimeSeriesAnalyser._find_loc_extremes` (analysis.py lines
155-185): the loop `for i in range(1, n - 1)` collects the tagged interior
positions in order. -/
def find_loc_extremes (values : List ℚ) : List (ℕ × ExtremeKind) :=
  (List.range' 1 (values.length - 1 - 1)).filterMap (fun i =>
    (locExtremeAt values i).map (fun t => (i, t)))

/-- A label of a pandas axis. The buffer's rows are labelled by timestamps, but
concatenating a raw `Series` adds rows labelled by its index entries, which are
the quote column names (strings). Python's `!=` between a `Timestamp` and a
string is `True` without error, which decidable equality of this sum reproduces. -/
inductive PdLabel
  | tsLabel (t : ℚ)
  | colLabel (s : String)
deriving DecidableEq

/-- One row of a pandas DataFrame: its index label and its non-NaN cells as an
association list from column label to value (cells absent from the list are NaN). -/
structure PdRow where
  label : PdLabel
  cells : List (PdLabel × ℚ)
deriving DecidableEq

/-- A pandas DataFrame as the list of its rows; the Observer's buffer `data`. -/
abbrev PdFrame := List PdRow

/-- The `Series` that `get_last_data` returns (stock_datas.py line 46,
`data.iloc[-1]`): its `.name` is the fetched row's timestamp and its index holds
the quote column names with that row's values. -/
structure PdSeries where
  name : ℚ
  fields : List (String × ℚ)
deriving DecidableEq

/-- Embedding of `pd.concat([data, last_data])` (stock_services.py line 145) for a
DataFrame and a raw `Series`: the Series is not appended as a row. It is treated
as a one-column frame whose single column is named `last_data.name` (the
timestamp) and whose rows are labelled by the Series' index entries (the quote
column names), so the outer-join concatenation keeps the old rows (NaN in the new
column) and adds one row per quote column, each carrying a single cell in the
timestamp-named column. -/
def pdConcatSeries (data : PdFrame) (s : PdSeries) : PdFrame :=
  data ++ s.fields.map (fun fv =>
    ⟨PdLabel.colLabel fv.1, [(PdLabel.tsLabel s.name, fv.2)]⟩)

/-- The last entry of the buffer's index, `data.index[-1]` (the buffer is nonempty
in the worker since the initial history fetch precedes the loop). -/
def lastIndexLabel (data : PdFrame) : PdLabel :=
  (data.getLastD ⟨PdLabel.tsLabel 0, []⟩).label

/-- Mutable state of one poll cycle of `StockObserver.__run`: the owned buffer and
the cached summary line (`write_str`, `None` before the first computation). -/
structure LoopState where
  data : PdFrame
  write_str : Option String
deriving DecidableEq

/-- Result of one poll cycle: the successor state, the line appended to the output
file, and how many times `__calc_write_str` (the Analyser chain) was invoked. -/
structure IterResult where
  state : LoopState
  output : String
  calcCalls : ℕ
deriving DecidableEq

/-- Embedding of one successful iteration of the polling loop of
`StockObserver.__run` (stock_services.py lines 130-157), parametrised by the pure
summary computation `calcStr` standing for `__calc_write_str`:
if `write_str` is `None` it is first computed from the current buffer; then, when
`last_data.name` differs from `data.index[-1]`, the buffer becomes
`pd.concat([data, last_data])` (see `pdConcatSeries`) and the summary is
recomputed; finally the current `write_str` is written out. -/
def runIter (calcStr : PdFrame → String) (st : LoopState) (last : PdSeries) :
    IterResult :=
  let c1 : ℕ := if st.write_str = none then 1 else 0
  let ws1 : String := st.write_str.getD (calcStr st.data)
  if PdLabel.tsLabel last.name = lastIndexLabel st.data then
    ⟨⟨st.data, some ws1⟩, ws1, c1⟩
  else
    ⟨⟨pdConcatSeries st.data last, some (calcStr (pdConcatSeries st.data last))⟩,
      calcStr (pdConcatSeries st.data last), c1 + 1⟩

/-- Observable state of a `StockObserver`: the worker thread handle (`None` when no
session exists, otherwise the worker's thread identity) and whether the session's
`StopToken` has been set. -/
structure ObserverState where
  thread : Option ℕ
  tokenStopped : Bool
deriving DecidableEq

/-- Outcome of `StockObserver.stop`: a normal return (`warned` records whether the
no-session warning was logged) or the `RuntimeError` that `threading.Thread.join`
raises when the calling thread attempts to join itself. -/
inductive StopResult
  | ok (warned : Bool)
  | raisedJoinSelf
deriving DecidableEq

/-- Embedding of `StockObserver.stop` (stock_services.py lines 89-100) together
with Python's `Thread.join` semantics: with no thread it only warns; otherwise the
token is set first, then `join` either raises `RuntimeError` (when the caller is
the worker thread itself, as in the worker's own fatal-error handler) or waits and
clears the thread handle. -/
def StockObserver.stop (s : ObserverState) (caller : Option ℕ) :
    ObserverState × StopResult :=
  match s.thread with
  | none => (s, StopResult.ok true)
  | some tid =>
      let s1 : ObserverState := ⟨s.thread, true⟩
      if caller = some tid then (s1, StopResult.raisedJoinSelf)
      else (⟨none, true⟩, StopResult.ok false)

/-- Embedding of `StockObserver.start` (stock_services.py lines 58-87), reduced to
its session bookkeeping: a live thread handle makes it raise the AlreadyRunning
`RuntimeError`; otherwise a fresh token and worker thread are installed. -/
def StockObserver.start (s : ObserverState) (newTid : ℕ) :
    Except PyErr ObserverState :=
  if s.thread ≠ none then Except.error PyErr.valueError
  else Except.ok ⟨some newTid, false⟩

/-- Error that escapes the worker's fatal-error handler (stock_services.py lines
119-128, 138-142, 148-156): the handler intends to re-raise the fatal
`RuntimeError`, but it first calls `self.stop()` from the worker thread itself. -/
inductive RunError
  | joinSelf
  | fatal
deriving DecidableEq

/-- Embedding of the worker's fatal-error handler `except: ... self.stop(); ...;
raise error` executed on the worker thread `tid`: when the internal `stop` raises
(join of the current thread), that `RuntimeError` replaces the fatal error being
handled; otherwise the fatal error is re-raised. -/
def workerFatal (s : ObserverState) (tid : ℕ) : ObserverState × RunError :=
  match StockObserver.stop s (some tid) with
  | (s1, StopResult.raisedJoinSelf) => (s1, RunError.joinSelf)
  | (s1, StopResult.ok _) => (s1, RunError.fatal)

/-- Embedding of the `join_dataframes` decorator (data_frames.py lines 87-110)
acting on the process-wide `JoinedDataframe` singleton list `st`.
`select = none` models a call without the `join_cols` keyword: `kwards.pop` raises
`KeyError`, the handler calls `func` once and the singleton is untouched.
`select = some sel` models a call with the keyword: `func` runs once, `sel` models
the column selection `data[join_cols]`; on success the selection is appended to
the singleton and `func` runs a second time for the return value; a failing
selection (`KeyError`) is caught and `func` still runs a second time with the
singleton untouched. The third component counts evaluations of `func`. -/
def join_dataframes {α β : Type} (func : α → β) (select : Option (β → Option β))
    (st : List β) (a : α) : List β × β × ℕ :=
  match select with
  | none => (st, func a, 1)
  | some sel =>
      match sel (func a) with
      | some part => (st ++ [part], func a, 2)
      | none => (st, func a, 2)

/-- C1: the code contradicts the claim. `pd.concat([data, last_data])` at
stock_services.py line 145 does not append the fetched Series as a row: starting
from a buffer with timestamps 0 and 1 and fetching a strictly newer sample
(timestamp 2, one quote column "Open"), the guard fires but the buffer gains a
row labelled by the column name "Open" carrying its value in a new
timestamp-named column — not a row with timestamp 2 — so the buffer's index no
longer ends in a timestamp. The next cycle compares timestamp 2 against the label
"Open", so refetching the very same sample concatenates a second, duplicate copy:
a sample that is not strictly newer is inserted, and the buffer's timestamps are
neither unique nor strictly increasing after these cycles. -/
theorem C1_concat_not_row_append :
    (runIter (fun _ => "w")
        ⟨[⟨PdLabel.tsLabel 0, [(PdLabel.colLabel "Open", 1)]⟩,
          ⟨PdLabel.tsLabel 1, [(PdLabel.colLabel "Open", 2)]⟩], some "w"⟩
        ⟨2, [("Open", 5)]⟩).state.data =
      [⟨PdLabel.tsLabel 0, [(PdLabel.colLabel "Open", 1)]⟩,
       ⟨PdLabel.tsLabel 1, [(PdLabel.colLabel "Open", 2)]⟩,
       ⟨PdLabel.colLabel "Open", [(PdLabel.tsLabel 2, 5)]⟩] ∧
    (runIter (fun _ => "w")
        ⟨[⟨PdLabel.tsLabel 0, [(PdLabel.colLabel "Open", 1)]⟩,
          ⟨PdLabel.tsLabel 1, [(PdLabel.colLabel "Open", 2)]⟩], some "w"⟩
        ⟨2, [("Open", 5)]⟩).state.data ≠
      [⟨PdLabel.tsLabel 0, [(PdLabel.colLabel "Open", 1)]⟩,
       ⟨PdLabel.tsLabel 1, [(PdLabel.colLabel "Open", 2)]⟩,
       ⟨PdLabel.tsLabel 2, [(PdLabel.colLabel "Open", 5)]⟩] ∧
    lastIndexLabel (runIter (fun _ => "w")
        ⟨[⟨PdLabel.tsLabel 0, [(PdLabel.colLabel "Open", 1)]⟩,
          ⟨PdLabel.tsLabel 1, [(PdLabel.colLabel "Open", 2)]⟩], some "w"⟩
        ⟨2, [("Open", 5)]⟩).state.data = PdLabel.colLabel "Open" ∧
    (runIter (fun _ => "w")
        (runIter (fun _ => "w")
          ⟨[⟨PdLabel.tsLabel 0, [(PdLabel.colLabel "Open", 1)]⟩,
            ⟨PdLabel.tsLabel 1, [(PdLabel.colLabel "Open", 2)]⟩], some "w"⟩
          ⟨2, [("Open", 5)]⟩).state
        ⟨2, [("Open", 5)]⟩).state.data =
      [⟨PdLabel.tsLabel 0, [(PdLabel.colLabel "Open", 1)]⟩,
       ⟨PdLabel.tsLabel 1, [(PdLabel.colLabel "Open", 2)]⟩,
       ⟨PdLabel.colLabel "Open", [(PdLabel.tsLabel 2, 5)]⟩,
       ⟨PdLabel.colLabel "Open", [(PdLabel.tsLabel 2, 5)]⟩] := by
  decide

/-- C2: the code contradicts the claim. `stop()` on an absent session only warns
(first conjunct) and `stop()` from another thread returns normally (second), but
the internal stop that the worker's own fatal-error handler performs calls
`self.__thread.join()` from the worker thread itself, which Python's
`threading.Thread.join` answers with `RuntimeError: cannot join current thread` —
so that invocation of `stop` raises (third conjunct). -/
theorem C2_stop_raises_from_worker :
    (StockObserver.stop ⟨none, false⟩ none).2 = StopResult.ok true ∧
    (StockObserver.stop ⟨some 1, false⟩ (some 0)).2 = StopResult.ok false ∧
    (StockObserver.stop ⟨some 1, false⟩ (some 1)).2 = StopResult.raisedJoinSelf := by
  decide

/-- C3: the code contradicts the claim. When the worker thread (id 1) handles a
fatal error, its internal `self.stop()` raises on the self-join before clearing
`self.__thread`; the `RuntimeError` of the join replaces the fatal error, the
session still holds the dead worker's handle, and a subsequent `start()` fails
with the AlreadyRunning error instead of succeeding. -/
theorem C3_session_left_running :
    (workerFatal ⟨some 1, false⟩ 1).1.thread = some 1 ∧
    (workerFatal ⟨some 1, false⟩ 1).2 = RunError.joinSelf ∧
    StockObserver.start (workerFatal ⟨some 1, false⟩ 1).1 2 =
      Except.error PyErr.valueError := by
  refine ⟨by decide, by decide, rfl⟩

/-- C4: confirmed. If the fetched sample's timestamp equals the buffer's last
timestamp in two consecutive poll cycles, the buffer is unchanged after both
cycles, the second cycle performs no `__calc_write_str` (Analyser) computation at
all, and the line it writes is byte-identical to the first cycle's line (the
cached `write_str` is reused verbatim). -/
theorem C4_cache_reuse (calcStr : PdFrame → String) (st : LoopState)
    (l1 l2 : PdSeries)
    (h1 : PdLabel.tsLabel l1.name = lastIndexLabel st.data)
    (h2 : PdLabel.tsLabel l2.name = lastIndexLabel st.data) :
    (runIter calcStr st l1).state.data = st.data ∧
    (runIter calcStr (runIter calcStr st l1).state l2).state.data = st.data ∧
    (runIter calcStr (runIter calcStr st l1).state l2).calcCalls = 0 ∧
    (runIter calcStr (runIter calcStr st l1).state l2).output =
      (runIter calcStr st l1).output := by
  have e1 : runIter calcStr st l1 =
      ⟨⟨st.data, some (st.write_str.getD (calcStr st.data))⟩,
        st.write_str.getD (calcStr st.data),
        if st.write_str = none then 1 else 0⟩ := by
    simp [runIter, h1]
  have e2 : runIter calcStr ⟨st.data, some (st.write_str.getD (calcStr st.data))⟩ l2 =
      ⟨⟨st.data, some (st.write_str.getD (calcStr st.data))⟩,
        st.write_str.getD (calcStr st.data), 0⟩ := by
    simp [runIter, h2]
  rw [e1, e2]
  exact ⟨rfl, rfl, rfl, rfl⟩

theorem C4_cache_reuse_witness :
    (PdLabel.tsLabel (PdSeries.mk 0 [("Open", 2)]).name =
      lastIndexLabel [⟨PdLabel.tsLabel 0, [(PdLabel.colLabel "Open", 1)]⟩]) ∧
    ((runIter (fun _ => "x")
        ⟨[⟨PdLabel.tsLabel 0, [(PdLabel.colLabel "Open", 1)]⟩], none⟩
        ⟨0, [("Open", 2)]⟩).state.data =
      [⟨PdLabel.tsLabel 0, [(PdLabel.colLabel "Open", 1)]⟩] ∧
      (runIter (fun _ => "x")
        (runIter (fun _ => "x")
          ⟨[⟨PdLabel.tsLabel 0, [(PdLabel.colLabel "Open", 1)]⟩], none⟩
          ⟨0, [("Open", 2)]⟩).state ⟨0, [("Open", 3)]⟩).state.data =
      [⟨PdLabel.tsLabel 0, [(PdLabel.colLabel "Open", 1)]⟩] ∧
      (runIter (fun _ => "x")
        (runIter (fun _ => "x")
          ⟨[⟨PdLabel.tsLabel 0, [(PdLabel.colLabel "Open", 1)]⟩], none⟩
          ⟨0, [("Open", 2)]⟩).state ⟨0, [("Open", 3)]⟩).calcCalls = 0 ∧
      (runIter (fun _ => "x")
        (runIter (fun _ => "x")
          ⟨[⟨PdLabel.tsLabel 0, [(PdLabel.colLabel "Open", 1)]⟩], none⟩
          ⟨0, [("Open", 2)]⟩).state ⟨0, [("Open", 3)]⟩).output =
        (runIter (fun _ => "x")
          ⟨[⟨PdLabel.tsLabel 0, [(PdLabel.colLabel "Open", 1)]⟩], none⟩
          ⟨0, [("Open", 2)]⟩).output) :=
  ⟨by decide,
    C4_cache_reuse (fun _ => "x")
      ⟨[⟨PdLabel.tsLabel 0, [(PdLabel.colLabel "Open", 1)]⟩], none⟩
      ⟨0, [("Open", 2)]⟩ ⟨0, [("Open", 3)]⟩ (by decide) (by decide)⟩

/-- C10: false as stated on the code. A call to a decorated operation with the
`join_cols` keyword appends to the process-wide `JoinedDataframe` singleton —
shared mutable state outside the Analyser instance — and evaluates the operation
twice, so such a call is not a pure function of its own arguments. -/
theorem C10_shared_singleton_counterexample :
    (join_dataframes (fun x : ℕ => x + 1) (some (fun b => some b)) [] 0).1 = [1] ∧
    (join_dataframes (fun x : ℕ => x + 1) (some (fun b => some b)) [] 0).1 ≠ [] ∧
    (join_dataframes (fun x : ℕ => x + 1) (some (fun b => some b)) [] 0).2.2 = 2 := by
  refine ⟨rfl, ?_, rfl⟩
  intro h
  simp [join_dataframes] at h

/-- C10 amended: every call returns a value determined by the operation's own
arguments alone (determinism), and a call without the `join_cols` keyword runs
the operation exactly once and leaves the process-wide singleton untouched; a
call with the keyword runs the operation twice and appends the selected columns
(when the selection succeeds) to the singleton. -/
theorem C10_purity_amended {α β : Type} (func : α → β) (sel : β → Option β)
    (st : List β) (a : α) :
    join_dataframes func none st a = (st, func a, 1) ∧
    (join_dataframes func (some sel) st a).2.1 = func a ∧
    (join_dataframes func (some sel) st a).2.2 = 2 ∧
    (join_dataframes func (some sel) st a).1 =
      (match sel (func a) with
       | some part => st ++ [part]
       | none => st) := by
  refine ⟨rfl, ?_, ?_, ?_⟩ <;>
    cases h : sel (func a) <;> simp [join_dataframes, h]

theorem take_drop_eq_range'_map (values : List ℚ) (i s : ℕ) (hi : i < values.length)
    (hs : s ≤ i + 1) :
    (values.take (i + 1)).drop s =
      (List.range' s (i + 1 - s)).map (fun j => values.getD j 0) := by
  apply List.ext_getElem
  · rw [List.length_drop, List.length_take, List.length_map, List.length_range',
      Nat.min_eq_left (by omega : i + 1 ≤ values.length)]
  · intro m h1 h2
    rw [List.length_drop, List.length_take,
      Nat.min_eq_left (by omega : i + 1 ≤ values.length)] at h1
    simp only [List.getElem_drop, List.getElem_take, List.getElem_map, List.getElem_range',
      Nat.one_mul]
    rw [List.getD_eq_getElem _ _ (by omega : s + m < values.length)]

/-- C5: confirmed. For a window `k ≥ 1` the count-window moving average returns one
entry per input row, entry `i` being the numpy average of the trailing window
`values[max(0, i - k + 1) .. i]` (never looking ahead); a window `k < 1` raises
`ValueError`, the InvalidArgument of the specification. -/
theorem C5_calc_movavg_int (values : List ℚ) (k : ℤ) :
    (1 ≤ k →
      calc_movarg_int values k = Except.ok (okValues (calc_movarg_int values k)) ∧
      (okValues (calc_movarg_int values k)).length = values.length ∧
      ∀ i, i < values.length →
        (okValues (calc_movarg_int values k)).getD i 0 =
          npAverage ((List.range' (i + 1 - k.toNat) (i + 1 - (i + 1 - k.toNat))).map
            (fun j => values.getD j 0))) ∧
    (k < 1 → calc_movarg_int values k = Except.error PyErr.valueError) := by
  constructor
  · intro hk
    have hnot : ¬ k < 1 := not_lt.mpr hk
    have hok : calc_movarg_int values k =
        Except.ok ((List.range values.length).map (fun i =>
          npAverage ((values.take (i + 1)).drop (i + 1 - k.toNat)))) := by
      simp [calc_movarg_int, hnot]
    rw [hok]
    refine ⟨rfl, by simp [okValues, Except.toOption], ?_⟩
    intro i hi
    show ((List.range values.length).map (fun i =>
        npAverage ((values.take (i + 1)).drop (i + 1 - k.toNat)))).getD i 0 = _
    have hlen : i < ((List.range values.length).map (fun i =>
        npAverage ((values.take (i + 1)).drop (i + 1 - k.toNat)))).length := by
      simpa using hi
    rw [List.getD_eq_getElem _ _ hlen]
    simp only [List.getElem_map, List.getElem_range]
    rw [take_drop_eq_range'_map values i (i + 1 - k.toNat) hi (by omega)]
  · intro hk
    simp [calc_movarg_int, hk]

theorem C5_calc_movavg_int_witness :
    ((1 : ℤ) ≤ 4) ∧
    ((okValues (calc_movarg_int [1, 2, 3, 4, 5, 6, 7, 8, 9] 4)).getD 4 0 =
      npAverage ((List.range' (4 + 1 - (4 : ℤ).toNat) (4 + 1 - (4 + 1 - (4 : ℤ).toNat))).map
        (fun j => ([1, 2, 3, 4, 5, 6, 7, 8, 9] : List ℚ).getD j 0))) ∧
    ((okValues (calc_movarg_int [1, 2, 3, 4, 5, 6, 7, 8, 9] 4)).getD 4 0 = 7 / 2) :=
  ⟨by decide,
    ((C5_calc_movavg_int [1, 2, 3, 4, 5, 6, 7, 8, 9] 4).1 (by decide)).2.2 4 (by decide),
    by
      have h4 : (4 : ℤ).toNat = 4 := rfl
      norm_num [okValues, Except.toOption, calc_movarg_int, npAverage, List.range_succ, h4]⟩

theorem mem_find_loc_extremes {values : List ℚ} {i : ℕ} {t : ExtremeKind} :
    (i, t) ∈ find_loc_extremes values ↔
      1 ≤ i ∧ i + 1 < values.length ∧ locExtremeAt values i = some t := by
  simp only [find_loc_extremes, List.mem_filterMap]
  constructor
  · rintro ⟨j, hj, hmap⟩
    rw [List.mem_range'_1] at hj
    rcases Option.map_eq_some'.mp hmap with ⟨t', ht', heq⟩
    cases heq
    exact ⟨hj.1, by omega, ht'⟩
  · rintro ⟨h1, h2, h3⟩
    refine ⟨i, ?_, by rw [h3]; rfl⟩
    rw [List.mem_range'_1]
    omega

theorem locExtremeAt_eq_some {values : List ℚ} {i : ℕ} {t : ExtremeKind} :
    locExtremeAt values i = some t ↔
      ((t = ExtremeKind.isMin ∧ values.getD i 0 ≤ values.getD (i - 1) 0 ∧
          values.getD i 0 ≤ values.getD (i + 1) 0) ∨
       (t = ExtremeKind.isMax ∧
          ¬ (values.getD i 0 ≤ values.getD (i - 1) 0 ∧
             values.getD i 0 ≤ values.getD (i + 1) 0) ∧
          values.getD (i - 1) 0 ≤ values.getD i 0 ∧
          values.getD (i + 1) 0 ≤ values.getD i 0)) := by
  unfold locExtremeAt
  split_ifs with h1 h2
  · constructor
    · intro h
      cases Option.some_inj.mp h
      exact Or.inl ⟨rfl, h1⟩
    · rintro (⟨rfl, -⟩ | ⟨rfl, hn, -⟩)
      · rfl
      · exact absurd h1 hn
  · constructor
    · intro h
      cases Option.some_inj.mp h
      exact Or.inr ⟨rfl, h1, h2⟩
    · rintro (⟨rfl, hc⟩ | ⟨rfl, -, -⟩)
      · exact absurd hc h1
      · rfl
  · constructor
    · intro h
      simp at h
    · rintro (⟨-, hc⟩ | ⟨-, -, hc1, hc2⟩)
      · exact absurd hc h1
      · exact absurd ⟨hc1, hc2⟩ h2

/-- C7: confirmed. The local-extrema scan reports only interior indices; a reported
index carries the Min tag exactly when `value[i] ≤ value[i-1]` and `value[i] ≤ value[i+1]`
(evaluated first, so a flat plateau point satisfying both predicates is Min), and
carries the Max tag exactly when the Min test failed while `value[i-1] ≤ value[i]`
and `value[i+1] ≤ value[i]`; on a strictly monotone series of length at least 3 the
result is empty. -/
theorem C7_local_extremes (values : List ℚ) :
    (∀ i t, (i, t) ∈ find_loc_extremes values ↔
      (1 ≤ i ∧ i + 1 < values.length ∧
        ((t = ExtremeKind.isMin ∧ values.getD i 0 ≤ values.getD (i - 1) 0 ∧
            values.getD i 0 ≤ values.getD (i + 1) 0) ∨
         (t = ExtremeKind.isMax ∧
            ¬ (values.getD i 0 ≤ values.getD (i - 1) 0 ∧
               values.getD i 0 ≤ values.getD (i + 1) 0) ∧
            values.getD (i - 1) 0 ≤ values.getD i 0 ∧
            values.getD (i + 1) 0 ≤ values.getD i 0)))) ∧
    (3 ≤ values.length →
      ((∀ j, j + 1 < values.length → values.getD j 0 < values.getD (j + 1) 0) ∨
       (∀ j, j + 1 < values.length → values.getD (j + 1) 0 < values.getD j 0)) →
      find_loc_extremes values = []) := by
  constructor
  · intro i t
    rw [mem_find_loc_extremes, locExtremeAt_eq_some]
  · intro hlen hmono
    rw [find_loc_extremes, List.filterMap_eq_nil_iff]
    intro j hj
    rw [List.mem_range'_1] at hj
    have h1j : 1 ≤ j := hj.1
    have hj2 : j + 1 < values.length := by omega
    rw [Option.map_eq_none']
    unfold locExtremeAt
    rcases hmono with hinc | hdec
    · have ha : values.getD (j - 1) 0 < values.getD j 0 := by
        have := hinc (j - 1) (by omega)
        rwa [Nat.sub_add_cancel h1j] at this
      have hb : values.getD j 0 < values.getD (j + 1) 0 := hinc j hj2
      rw [if_neg, if_neg]
      · rintro ⟨-, hc⟩
        exact absurd hc (not_le.mpr hb)
      · rintro ⟨hc, -⟩
        exact absurd hc (not_le.mpr ha)
    · have ha : values.getD j 0 < values.getD (j - 1) 0 := by
        have := hdec (j - 1) (by omega)
        rwa [Nat.sub_add_cancel h1j] at this
      have hb : values.getD (j + 1) 0 < values.getD j 0 := hdec j hj2
      rw [if_neg, if_neg]
      · rintro ⟨hc, -⟩
        exact absurd hc (not_le.mpr ha)
      · rintro ⟨-, hc⟩
        exact absurd hc (not_le.mpr hb)

theorem C7_local_extremes_witness :
    ((3 : ℕ) ≤ ([1, 2, 3] : List ℚ).length) ∧
    (∀ j, j + 1 < ([1, 2, 3] : List ℚ).length →
      ([1, 2, 3] : List ℚ).getD j 0 < ([1, 2, 3] : List ℚ).getD (j + 1) 0) ∧
    find_loc_extremes [1, 2, 3] = [] :=
  have hmono : ∀ j, j + 1 < ([1, 2, 3] : List ℚ).length →
      ([1, 2, 3] : List ℚ).getD j 0 < ([1, 2, 3] : List ℚ).getD (j + 1) 0 := by
    intro j hj
    have hj' : j < 2 := by
      simp only [List.length_cons, List.length_nil] at hj
      omega
    interval_cases j <;> decide
  ⟨by decide, hmono, (C7_local_extremes [1, 2, 3]).2 (by decide) (Or.inl hmono)⟩

theorem except_bind_ok {α β : Type} (a : α) (f : α → Except PyErr β) :
    (do
      let x ← Except.ok a
      f x : Except PyErr β) = f a := rfl

/-- C8: false as stated on the code. On the one-row series `[1]` (with an explicit
sampling interval, as the Observer always supplies one) both `differentiate` and
`calc_autocor` return an empty result and raise nothing — in particular not the
claimed InvalidArgument (`ValueError`). -/
theorem C8_short_series_counterexample :
    differentiate ⟨[0], "Open", [1]⟩ 1 "Open" = Except.ok [] ∧
    differentiate ⟨[0], "Open", [1]⟩ 1 "Open" ≠ Except.error PyErr.valueError ∧
    calc_autocor ⟨[0], "Open", [1]⟩ "Open" = Except.ok [] ∧
    calc_autocor ⟨[0], "Open", [1]⟩ "Open" ≠ Except.error PyErr.valueError := by
  have h1 : differentiate ⟨[0], "Open", [1]⟩ 1 "Open" = Except.ok [] := by
    simp [differentiate, get_array, except_bind_ok]
  have h2 : calc_autocor ⟨[0], "Open", [1]⟩ "Open" = Except.ok [] := by
    simp [calc_autocor, get_array, autocorList, except_bind_ok]
  refine ⟨h1, ?_, h2, ?_⟩
  · rw [h1]
    intro h
    exact Except.noConfusion h
  · rw [h2]
    intro h
    exact Except.noConfusion h

/-- C8 amended: a series too short for `differentiate` or `calc_autocor` does not
fail with InvalidArgument: on one row both return an empty series; on zero rows
`differentiate` still returns an empty series while `calc_autocor` hits
`np.empty([-1])` and fails with numpy's untyped `ValueError`; and constructing the
analyser without an explicit interval on fewer than two rows fails with an
untyped `IndexError` before any operation runs. -/
theorem C8_short_series_behavior (df : PyDataFrame) (interval : ℚ) (col : String)
    (hcol : col = df.colName) :
    (df.values.length = 1 →
      differentiate df interval col = Except.ok [] ∧
      calc_autocor df col = Except.ok []) ∧
    (df.values.length = 0 →
      differentiate df interval col = Except.ok [] ∧
      calc_autocor df col = Except.error PyErr.valueError) ∧
    (df.index.length < 2 →
      analyser_init df.index none = Except.error PyErr.indexError) := by
  have harr : get_array df col = Except.ok df.values := by
    simp [get_array, hcol]
  refine ⟨?_, ?_, ?_⟩
  · intro h1
    have hne : ¬ df.values = [] := by
      intro h
      rw [h] at h1
      simp at h1
    constructor
    · simp [differentiate, harr, except_bind_ok, h1]
    · simp [calc_autocor, harr, except_bind_ok, h1, autocorList, hne]
  · intro h0
    have hnil : df.values = [] := List.length_eq_zero.mp h0
    constructor
    · simp [differentiate, harr, except_bind_ok, h0]
    · simp [calc_autocor, harr, except_bind_ok, hnil]
  · intro hshort
    simp [analyser_init, hshort]

theorem C8_short_series_behavior_witness :
    ("Open" = (PyDataFrame.mk [0] "Open" [1]).colName) ∧
    ((PyDataFrame.mk [0] "Open" [1]).values.length = 1) ∧
    (differentiate ⟨[0], "Open", [1]⟩ 1 "Open" = Except.ok [] ∧
      calc_autocor ⟨[0], "Open", [1]⟩ "Open" = Except.ok []) :=
  ⟨rfl, rfl, (C8_short_series_behavior ⟨[0], "Open", [1]⟩ 1 "Open" rfl).1 rfl⟩

theorem movavg_window_cond_iff (ts : List ℚ) (t0 s : ℚ) (kn i j : ℕ)
    (huni : ∀ m, m < ts.length → ts.getD m 0 = t0 + m * s) (hs : 0 < s)
    (hi : i < ts.length) (hj : j < ts.length) :
    ts.getD i 0 - ts.getD j 0 ≤ ((kn : ℚ) - 1) * s ↔ i + 1 ≤ j + kn := by
  rw [huni i hi, huni j hj]
  have h1 : t0 + (i : ℚ) * s - (t0 + (j : ℚ) * s) = ((i : ℚ) - j) * s := by ring
  rw [h1, mul_le_mul_right hs]
  constructor
  · intro h
    have h2 : (i : ℚ) + 1 ≤ (j : ℚ) + kn := by linarith
    exact_mod_cast h2
  · intro h
    have h2 : (i : ℚ) + 1 ≤ (j : ℚ) + kn := by exact_mod_cast h
    linarith

theorem sum_back_closed (ts vs : List ℚ) (t0 s : ℚ) (kn i : ℕ)
    (hlen : ts.length = vs.length)
    (huni : ∀ m, m < ts.length → ts.getD m 0 = t0 + m * s)
    (hs : 0 < s) (hi : i < vs.length) :
    ∀ j, j ≤ i →
      sum_back ts vs (ts.getD i 0) (((kn : ℚ) - 1) * s) j =
        (if i + 1 ≤ j + kn then
          (((List.range' (i + 1 - kn) (j + 1 - (i + 1 - kn))).map
              (fun m => vs.getD m 0)).sum,
            j + 1 - (i + 1 - kn))
         else (0, 0)) := by
  have hits : i < ts.length := by rw [hlen]; exact hi
  intro j
  induction j with
  | zero =>
      intro hj0
      have hcnd := movavg_window_cond_iff ts t0 s kn i 0 huni hs hits (by omega)
      simp only [sum_back]
      by_cases hc : i + 1 ≤ 0 + kn
      · rw [if_pos (hcnd.mpr hc), if_pos hc]
        have h0 : i + 1 - kn = 0 := by omega
        rw [h0]
        simp [List.range'_one]
      · rw [if_neg (fun h => hc (hcnd.mp h)), if_neg hc]
  | succ j ih =>
      intro hj1
      have hcnd := movavg_window_cond_iff ts t0 s kn i (j + 1) huni hs hits (by omega)
      simp only [sum_back]
      by_cases hc : i + 1 ≤ (j + 1) + kn
      · rw [if_pos (hcnd.mpr hc), ih (by omega), if_pos hc]
        by_cases hc' : i + 1 ≤ j + kn
        · rw [if_pos hc']
          have hcount : (j + 1) + 1 - (i + 1 - kn) = (j + 1 - (i + 1 - kn)) + 1 := by omega
          rw [hcount, List.range'_concat]
          simp only [Nat.one_mul]
          have hend : (i + 1 - kn) + (j + 1 - (i + 1 - kn)) = j + 1 := by omega
          rw [hend]
          simp only [List.map_append, List.sum_append, List.map_cons, List.map_nil,
            List.sum_cons, List.sum_nil, Prod.mk.injEq]
          refine ⟨by ring, trivial⟩
        · rw [if_neg hc']
          have hcount : (j + 1) + 1 - (i + 1 - kn) = 1 := by omega
          have hlo : i + 1 - kn = j + 1 := by omega
          rw [hcount, hlo]
          simp [List.range'_one]
      · rw [if_neg (fun h => hc (hcnd.mp h)), if_neg hc]

/-- C9: confirmed. Under uniform timestamp spacing `s > 0` and a count `k ≥ 1`,
the duration-window moving average with window `D = (k - 1) * s` (the duration
spanning exactly the same `k` samples) agrees with the count-window moving
average with window `k` at every index. -/
theorem C9_duration_window_eq_count (ts vs : List ℚ) (t0 s : ℚ) (k : ℤ)
    (hlen : ts.length = vs.length)
    (huni : ∀ m, m < ts.length → ts.getD m 0 = t0 + m * s)
    (hs : 0 < s) (hk : 1 ≤ k) :
    calc_movarg_timedelta ts vs (((k : ℚ) - 1) * s) =
      okValues (calc_movarg_int vs k) := by
  have hnot : ¬ k < 1 := not_lt.mpr hk
  have hcast : ((k.toNat : ℚ)) = (k : ℚ) := by
    have h1 : ((k.toNat : ℤ)) = k := Int.toNat_of_nonneg (by omega)
    exact_mod_cast congrArg (fun z : ℤ => (z : ℚ)) h1
  have hok : okValues (calc_movarg_int vs k) =
      (List.range vs.length).map (fun i =>
        npAverage ((vs.take (i + 1)).drop (i + 1 - k.toNat))) := by
    simp [calc_movarg_int, hnot, okValues, Except.toOption]
  rw [hok, calc_movarg_timedelta]
  apply List.map_congr_left
  intro i hi'
  have hi : i < vs.length := List.mem_range.mp hi'
  rw [take_drop_eq_range'_map vs i (i + 1 - k.toNat) hi (by omega)]
  rw [← hcast]
  rw [sum_back_closed ts vs t0 s k.toNat i hlen huni hs hi i (le_refl i)]
  rw [if_pos (by omega : i + 1 ≤ i + k.toNat)]
  simp [npAverage]

theorem C9_duration_window_eq_count_witness :
    (([0, 1, 2, 3] : List ℚ).length = ([1, 2, 3, 4] : List ℚ).length) ∧
    (∀ m, m < ([0, 1, 2, 3] : List ℚ).length →
      ([0, 1, 2, 3] : List ℚ).getD m 0 = 0 + m * 1) ∧
    ((0 : ℚ) < 1) ∧ ((1 : ℤ) ≤ 2) ∧
    calc_movarg_timedelta [0, 1, 2, 3] [1, 2, 3, 4] ((((2 : ℤ) : ℚ) - 1) * 1) =
      okValues (calc_movarg_int [1, 2, 3, 4] 2) :=
  have huni4 : ∀ m, m < ([0, 1, 2, 3] : List ℚ).length →
      ([0, 1, 2, 3] : List ℚ).getD m 0 = 0 + m * 1 := by
    intro m hm
    have hm4 : m < 4 := by simpa using hm
    interval_cases m <;> norm_num
  ⟨by decide, huni4, by norm_num, by decide,
    C9_duration_window_eq_count [0, 1, 2, 3] [1, 2, 3, 4] 0 1 2
      (by decide) huni4 (by norm_num) (by decide)⟩

theorem list_sum_nonneg_eq_zero {xs : List ℚ} (hpos : ∀ a ∈ xs, 0 ≤ a)
    (h0 : xs.sum = 0) : ∀ a ∈ xs, a = 0 := by
  induction xs with
  | nil =>
      intro a ha
      exact absurd ha (List.not_mem_nil a)
  | cons b xs ih =>
      have hb : 0 ≤ b := hpos b (List.mem_cons_self b xs)
      have hrest : 0 ≤ xs.sum :=
        List.sum_nonneg (fun a ha => hpos a (List.mem_cons_of_mem b ha))
      rw [List.sum_cons] at h0
      have hb0 : b = 0 := by linarith
      have hxs0 : xs.sum = 0 := by linarith
      intro a ha
      rcases List.mem_cons.mp ha with rfl | ha'
      · exact hb0
      · exact ih (fun a ha => hpos a (List.mem_cons_of_mem b ha)) hxs0 a ha'

theorem npVariance_zero_const {xs : List ℚ} (h : npVariance xs = 0) :
    ∀ a ∈ xs, a = npAverage xs := by
  intro a ha
  have hne : xs ≠ [] := by
    rintro rfl
    exact absurd ha (List.not_mem_nil a)
  have hlen : (0 : ℚ) < xs.length := by
    have h1 := List.length_pos.mpr hne
    exact_mod_cast h1
  have hsum : (xs.map (fun x => (x - npAverage xs) ^ 2)).sum = 0 := by
    unfold npVariance npAverage at h
    rw [List.length_map] at h
    rcases div_eq_zero_iff.mp h with h' | h'
    · exact h'
    · exact absurd h' (by linarith)
  have hmem : (a - npAverage xs) ^ 2 ∈ xs.map (fun x => (x - npAverage xs) ^ 2) :=
    List.mem_map_of_mem _ ha
  have hzero := list_sum_nonneg_eq_zero (fun b hb => by
    rcases List.mem_map.mp hb with ⟨x, -, rfl⟩
    positivity) hsum _ hmem
  have h2 : a - npAverage xs = 0 := by
    have := pow_eq_zero_iff (two_ne_zero) |>.mp hzero
    exact this
  linarith

theorem zipWith_mul_sum_const_left {x : List ℚ} {c : ℚ} (hc : ∀ a ∈ x, a = c) :
    ∀ {y : List ℚ}, x.length = y.length →
      (List.zipWith (fun a b => a * b) x y).sum = c * y.sum := by
  induction x with
  | nil =>
      intro y hlen
      cases y with
      | nil => simp
      | cons b ys => simp at hlen
  | cons a xs ih =>
      intro y hlen
      cases y with
      | nil => simp at hlen
      | cons b ys =>
          rw [List.zipWith_cons_cons, List.sum_cons, List.sum_cons]
          rw [hc a (List.mem_cons_self a xs)]
          rw [ih (fun a' ha' => hc a' (List.mem_cons_of_mem a ha')) (by simpa using hlen)]
          ring

theorem zipWith_mul_sum_const_right {y : List ℚ} {c : ℚ} (hc : ∀ b ∈ y, b = c) :
    ∀ {x : List ℚ}, x.length = y.length →
      (List.zipWith (fun a b => a * b) x y).sum = c * x.sum := by
  induction y with
  | nil =>
      intro x hlen
      cases x with
      | nil => simp
      | cons a xs => simp at hlen
  | cons b ys ih =>
      intro x hlen
      cases x with
      | nil => simp at hlen
      | cons a xs =>
          rw [List.zipWith_cons_cons, List.sum_cons, List.sum_cons]
          rw [hc b (List.mem_cons_self b ys)]
          rw [ih (fun b' hb' => hc b' (List.mem_cons_of_mem b hb')) (by simpa using hlen)]
          ring

theorem autocorEntry_nan {x y : List ℚ} (hlen : x.length = y.length)
    (hvar : npVariance x = 0 ∨ npVariance y = 0) :
    autocorEntry x y = PyFloat.nan := by
  have hnum : npAverage (List.zipWith (fun a b => a * b) x y) =
      npAverage x * npAverage y := by
    have hzl : (List.zipWith (fun a b => a * b) x y).length = y.length := by
      rw [List.length_zipWith, hlen, Nat.min_self]
    rcases hvar with hx | hy
    · have hconst := npVariance_zero_const hx
      have hsum := zipWith_mul_sum_const_left hconst hlen
      calc npAverage (List.zipWith (fun a b => a * b) x y)
          = (List.zipWith (fun a b => a * b) x y).sum /
              (((List.zipWith (fun a b => a * b) x y).length : ℕ) : ℚ) := rfl
        _ = (npAverage x * y.sum) / ((y.length : ℕ) : ℚ) := by rw [hsum, hzl]
        _ = npAverage x * (y.sum / ((y.length : ℕ) : ℚ)) := by rw [mul_div_assoc]
        _ = npAverage x * npAverage y := rfl
    · have hconst := npVariance_zero_const hy
      have hsum := zipWith_mul_sum_const_right hconst hlen
      calc npAverage (List.zipWith (fun a b => a * b) x y)
          = (List.zipWith (fun a b => a * b) x y).sum /
              (((List.zipWith (fun a b => a * b) x y).length : ℕ) : ℚ) := rfl
        _ = (npAverage y * x.sum) / ((y.length : ℕ) : ℚ) := by rw [hsum, hzl]
        _ = npAverage y * (x.sum / ((y.length : ℕ) : ℚ)) := by rw [mul_div_assoc]
        _ = npAverage y * (x.sum / ((x.length : ℕ) : ℚ)) := by rw [← hlen]
        _ = npAverage x * npAverage y := mul_comm _ _
  have hden : npStd x * npStd y = 0 := by
    rcases hvar with hx | hy
    · have h0 : npStd x = 0 := by
        rw [npStd, hx]
        simp
      rw [h0, zero_mul]
    · have h0 : npStd y = 0 := by
        rw [npStd, hy]
        simp
      rw [h0, mul_zero]
  have hnum0 : ((npAverage (List.zipWith (fun a b => a * b) x y) : ℚ) : ℝ) -
      (npAverage x : ℝ) * (npAverage y : ℝ) = 0 := by
    rw [hnum]
    push_cast
    ring
  unfold autocorEntry
  rw [hnum0, hden]
  unfold pydiv
  simp

/-- C6: confirmed. With at least two rows, `calc_autocor` succeeds with a
lag-indexed series of length `n - 1` whose entry at lag `l` is
`(avg(x*y) - avg(x)*avg(y)) / (std(x)*std(y))` for `x = values[l:n]` and
`y = values[0:n-l]` under numpy float division; when either sub-series has zero
variance that entry is the defined value NaN (the covariance is then zero too),
never an uncaught fault. -/
theorem C6_calc_autocor (df : PyDataFrame) (col : String) (l : ℕ)
    (hcol : col = df.colName) (hn : 2 ≤ df.values.length)
    (hl : l < df.values.length - 1) :
    calc_autocor df col = Except.ok (autocorList df.values) ∧
    (autocorList df.values).length = df.values.length - 1 ∧
    (autocorList df.values).getD l PyFloat.nan =
      pydiv ((npAverage (List.zipWith (fun a b => a * b) (df.values.drop l)
                (df.values.take (df.values.length - l))) : ℝ) -
             (npAverage (df.values.drop l) : ℝ) *
               (npAverage (df.values.take (df.values.length - l)) : ℝ))
            (npStd (df.values.drop l) * npStd (df.values.take (df.values.length - l))) ∧
    ((npVariance (df.values.drop l) = 0 ∨
        npVariance (df.values.take (df.values.length - l)) = 0) →
      (autocorList df.values).getD l PyFloat.nan = PyFloat.nan) := by
  have hne : ¬ df.values.length = 0 := by omega
  have hne' : ¬ df.values = [] := by
    intro h
    rw [h] at hn
    simp at hn
  have harr : get_array df col = Except.ok df.values := by
    simp [get_array, hcol]
  have hgd : (autocorList df.values).getD l PyFloat.nan =
      autocorEntry (df.values.drop l) (df.values.take (df.values.length - l)) := by
    unfold autocorList
    have hlen : l < ((List.range (df.values.length - 1)).map (fun i =>
        autocorEntry (df.values.drop i)
          (df.values.take (df.values.length - i)))).length := by
      simpa using hl
    rw [List.getD_eq_getElem _ _ hlen]
    simp only [List.getElem_map, List.getElem_range]
  refine ⟨?_, by simp [autocorList], ?_, ?_⟩
  · simp [calc_autocor, harr, except_bind_ok, hne, hne']
  · rw [hgd]
    rfl
  · intro hvar
    rw [hgd]
    apply autocorEntry_nan
    · rw [List.length_drop, List.length_take,
        Nat.min_eq_left (by omega : df.values.length - l ≤ df.values.length)]
    · exact hvar

theorem C6_calc_autocor_witness :
    ("Open" = (PyDataFrame.mk [0, 1, 2] "Open" [1, 1, 1]).colName) ∧
    (2 ≤ ([1, 1, 1] : List ℚ).length) ∧
    (0 < ([1, 1, 1] : List ℚ).length - 1) ∧
    npVariance (([1, 1, 1] : List ℚ).drop 0) = 0 ∧
    (autocorList [1, 1, 1]).getD 0 PyFloat.nan = PyFloat.nan :=
  ⟨rfl, by decide, by decide, by norm_num [npVariance, npAverage],
    (C6_calc_autocor ⟨[0, 1, 2], "Open", [1, 1, 1]⟩ "Open" 0 rfl (by decide)
        (by decide)).2.2.2
      (Or.inl (by norm_num [npVariance, npAverage]))⟩

end StockRepo
